import Mathlib

/-!
Shallow embedding of the contest-tracker server pipeline
(`src/server/index.js`): the Contest data model, the duration
formatter, the adapter/upsert fetch cycle, the status-lifecycle scan,
the YouTube solution finder's request construction, and the one-shot
backfill pass.

Conventions of the embedding:
* Timestamps (`Date` values) are modeled as integer milliseconds since
  the epoch (`Int`); comparisons between `Date`s in the source are
  numeric comparisons of these instants.
* JavaScript number arithmetic in `formatDuration` is modeled by exact
  integer arithmetic; at the magnitudes exercised here the float
  computations of the source are exact (or their floor/round results
  coincide with the exact ones), so the two agree on every input
  appearing in a theorem below.
* Nullable string fields (`solutionUrl`) are `Option String`; the
  JavaScript truthiness test `!x` on such a field is false exactly for
  `null` and the empty string, which `isFalsyStr` models.
* Database effects are modeled by explicit state passing over a
  `List Contest` store; a thrown-and-caught exception in a scan loop is
  modeled by a `threw` flag with the partial store at the throw point.
* Network calls are modeled by oracle parameters (`Except`-valued
  responses for the adapters, a lookup function for the solution
  finder), so each claim quantifies over all upstream behaviours.
-/

namespace ContestTracker

/-- The stored Contest document (`contestSchema`): `name`, `platform`,
`duration` (display string), `startTime`/`endTime` (instants), `status`
(schema default `"Upcoming"`), `url`, and nullable `solutionUrl`
(schema default `null`). -/
structure Contest where
  name : String
  platform : String
  duration : String
  startTime : Int
  endTime : Int
  status : String
  url : String
  solutionUrl : Option String
deriving Repr, DecidableEq

/-- The plain object an adapter produces for one contest (the `map`
targets in `fetchAndStoreContests`): it carries every Contest field
except `solutionUrl`, which no adapter ever sets. -/
structure NewContest where
  name : String
  platform : String
  duration : String
  startTime : Int
  endTime : Int
  status : String
  url : String
deriving Repr, DecidableEq

/-- JavaScript `String.prototype.trim`: strip whitespace from both ends.
(Defined over the character list so that it reduces in the kernel; the
only whitespace the formatter can produce is a single leading space.) -/
def jsTrim (s : String) : String :=
  ⟨((s.data.dropWhile Char.isWhitespace).reverse.dropWhile Char.isWhitespace).reverse⟩

/-- `formatDuration` (src/server/index.js lines 110-122), over integer
seconds. The float computations of the source are rendered exactly:
`totalHours >= 24` iff `d >= 86400`; `Math.floor(totalHours / 24)` is
`d / 86400`; `Math.round(totalHours % 24)` is
`(d % 86400 + 1800) / 3600` (round half toward positive infinity);
`Math.floor(totalHours)` is `d / 3600`; and
`Math.round((d % 3600) / 60)` is `(d % 3600 + 30) / 60`. The guard
`!durationSeconds || durationSeconds <= 0` is `d ≤ 0` on integers. -/
def formatDuration (durationSeconds : Int) : String :=
  if durationSeconds ≤ 0 then ""
  else
    let d := durationSeconds.toNat
    if 86400 ≤ d then
      let days := d / 86400
      let hours := (d % 86400 + 1800) / 3600
      toString days ++ "d" ++ (if 0 < hours then " " ++ toString hours ++ "h" else "")
    else
      let hours := d / 3600
      let minutes := (d % 3600 + 30) / 60
      jsTrim ((if 0 < hours then toString hours ++ "h" else "") ++
        (if 0 < minutes then " " ++ toString minutes ++ "m" else ""))

/-! ## Reconciliation store: the bulk upsert of `fetchAndStoreContests`

`Contest.bulkWrite` over `updateOne` operations with
`filter: (name, startTime)`, `update: $set: c`, `upsert: true`,
applied in order (ordered bulk write). `updateOne` updates the first
record matching the filter; with `upsert: true` and no match it inserts
a document built from the `$set` fields plus schema defaults
(`solutionUrl := null`). -/

/-- The `updateOne` filter `(name: c.name, startTime: c.startTime)`. -/
def contestKeyMatches (r : Contest) (c : NewContest) : Bool :=
  r.name == c.name && r.startTime == c.startTime

/-- `$set: c` on an existing record: every field of the adapter object
overwrites the stored one; `solutionUrl` is absent from `c` and is left
untouched. -/
def applySet (r : Contest) (c : NewContest) : Contest :=
  { r with name := c.name, platform := c.platform, duration := c.duration,
           startTime := c.startTime, endTime := c.endTime,
           status := c.status, url := c.url }

/-- The document inserted on upsert-miss: the `$set` fields plus the
schema default `solutionUrl := null`. -/
def insertDoc (c : NewContest) : Contest :=
  { name := c.name, platform := c.platform, duration := c.duration,
    startTime := c.startTime, endTime := c.endTime, status := c.status,
    url := c.url, solutionUrl := none }

/-- One `updateOne`+upsert operation against the store. -/
def upsertOne : List Contest → NewContest → List Contest
  | [], c => [insertDoc c]
  | r :: rs, c =>
    if contestKeyMatches r c then applySet r c :: rs else r :: upsertOne rs c

/-- The ordered `bulkWrite` of `fetchAndStoreContests` (lines 190-198). -/
def upsertBatch (store : List Contest) (batch : List NewContest) : List Contest :=
  batch.foldl upsertOne store

/-! ## Platform adapters (lines 158-188)

Each upstream call is modeled by an `Except`-valued response: `.error`
is any thrown network/parse/schema failure, which the per-adapter
`try/catch` turns into an empty contribution. Response bodies carry
exactly the fields the mapping reads; optional/truthiness-tested bodies
are `Option`s. -/

structure CFContestItem where
  id : Int
  name : String
  phase : String
  startTimeSeconds : Int
  durationSeconds : Int
deriving Repr, DecidableEq

structure CFResponse where
  status : String
  result : List CFContestItem
deriving Repr, DecidableEq

/-- The Codeforces block of `fetchAndStoreContests`: contributes only
when `data.status === 'OK'`, keeping contests with `phase === 'BEFORE'`. -/
def cfAdapter (resp : Except String CFResponse) : List NewContest :=
  match resp with
  | .error _ => []
  | .ok r =>
    if r.status == "OK" then
      (r.result.filter (fun c => c.phase == "BEFORE")).map (fun c =>
        { name := c.name, platform := "Codeforces",
          duration := formatDuration c.durationSeconds,
          startTime := c.startTimeSeconds * 1000,
          endTime := c.startTimeSeconds * 1000 + c.durationSeconds * 1000,
          status := "Upcoming",
          url := "https://codeforces.com/contests/" ++ toString c.id })
    else []

structure LCContestItem where
  title : String
  titleSlug : String
  startTime : Int
  duration : Int
deriving Repr, DecidableEq

/-- The LeetCode block: contributes when `data.data.upcomingContests`
is present (truthy); `startTime` and `duration` are given in seconds. -/
def lcAdapter (resp : Except String (Option (List LCContestItem))) : List NewContest :=
  match resp with
  | .error _ => []
  | .ok none => []
  | .ok (some items) => items.map (fun c =>
      { name := c.title, platform := "LeetCode",
        duration := formatDuration c.duration,
        startTime := c.startTime * 1000,
        endTime := c.startTime * 1000 + c.duration * 1000,
        status := "Upcoming",
        url := "https://leetcode.com/contest/" ++ c.titleSlug })

structure HEContestItem where
  title : String
  status : String
  start_utc_tz : Int
  end_utc_tz : Int
  url : String
deriving Repr, DecidableEq

/-- The HackerEarth block: contributes when `data.response` is truthy,
keeping events with `status === 'UPCOMING'`; the duration seconds are
the millisecond difference of the two instants divided by 1000 (the
instants are whole seconds upstream, so integer division is exact). -/
def heAdapter (resp : Except String (Option (List HEContestItem))) : List NewContest :=
  match resp with
  | .error _ => []
  | .ok none => []
  | .ok (some items) =>
    (items.filter (fun c => c.status == "UPCOMING")).map (fun c =>
      { name := c.title, platform := "HackerEarth",
        duration := formatDuration ((c.end_utc_tz - c.start_utc_tz) / 1000),
        startTime := c.start_utc_tz,
        endTime := c.end_utc_tz,
        status := "Upcoming",
        url := c.url })

structure TCChallengeItem where
  id : String
  name : String
  startDate : Int
  endDate : Int
deriving Repr, DecidableEq

/-- The TopCoder block: contributes when `data` is truthy, keeping
challenges with `new Date(c.startDate) > new Date()` (strictly in the
future at scan time `now`). -/
def tcAdapter (now : Int) (resp : Except String (Option (List TCChallengeItem))) : List NewContest :=
  match resp with
  | .error _ => []
  | .ok none => []
  | .ok (some items) =>
    (items.filter (fun c => now < c.startDate)).map (fun c =>
      { name := c.name, platform := "TopCoder",
        duration := formatDuration ((c.endDate - c.startDate) / 1000),
        startTime := c.startDate,
        endTime := c.endDate,
        status := "Upcoming",
        url := "https://www.topcoder.com/challenges/" ++ c.id })

/-- `fetchAndStoreContests` (lines 154-201): each adapter's contribution
is collected (a failed one contributing nothing), and the concatenated
batch is bulk-upserted when non-empty. -/
def fetchAndStoreContests (now : Int)
    (cf : Except String CFResponse)
    (lc : Except String (Option (List LCContestItem)))
    (he : Except String (Option (List HEContestItem)))
    (tc : Except String (Option (List TCChallengeItem)))
    (store : List Contest) : List Contest :=
  let allUpcomingContests :=
    cfAdapter cf ++ lcAdapter lc ++ heAdapter he ++ tcAdapter now tc
  if 0 < allUpcomingContests.length then upsertBatch store allUpcomingContests
  else store

/-! ## Solution finder (`findYouTubeSolution`, lines 204-243) -/

def TLE_ELIMINATORS_CHANNEL_ID : String := "UCfaJ6P3Q60-wGzE0sS1j_ew"

/-- The parameter object sent to the YouTube search endpoint.
`publishedAfter` is the instant `new Date(contestEndTime).toISOString()`
denotes, kept as the integer instant here; the API `key` is an
environment secret carrying no logic and is omitted. -/
structure YTSearchParams where
  part : String
  q : String
  maxResults : Nat
  type : String
  order : String
  publishedAfter : Int
  channelId : Option String
deriving Repr, DecidableEq

/-- Construction of the search parameters in `findYouTubeSolution`:
the base object of lines 210-218, plus the trusted-channel restriction
added exactly for Codeforces and LeetCode (lines 221-223). -/
def buildYTParams (contestName : String) (contestEndTime : Int)
    (platform : String) : YTSearchParams :=
  let base : YTSearchParams :=
    { part := "snippet",
      q := "\"" ++ contestName ++ "\" solution editorial",
      maxResults := 1, type := "video", order := "date",
      publishedAfter := contestEndTime, channelId := none }
  if platform = "Codeforces" ∨ platform = "LeetCode" then
    { base with channelId := some TLE_ELIMINATORS_CHANNEL_ID }
  else base

structure YTItem where
  videoId : String
deriving Repr, DecidableEq

/-- `findYouTubeSolution`, with the HTTP call abstracted as an oracle
`api`: returns the first item's `videoId`, and `null` on zero results
or any thrown error (the `catch` of lines 239-242). -/
def findYouTubeSolution (api : YTSearchParams → Except String (List YTItem))
    (contestName : String) (contestEndTime : Int) (platform : String) :
    Option String :=
  match api (buildYTParams contestName contestEndTime platform) with
  | .error _ => none
  | .ok [] => none
  | .ok (item :: _) => some item.videoId

/-! ## Status lifecycle scan (`updateContestStatuses`, lines 245-280) -/

/-- JavaScript truthiness of a nullable string: `!x` holds exactly for
`null` and the empty string. `!contest.solutionUrl` (line 267) is
`isFalsyStr contest.solutionUrl`. -/
def isFalsyStr : Option String → Bool
  | none => true
  | some s => s == ""

/-- The status recomputation of lines 254-261, a pure function of
`(now, startTime, endTime)`. -/
def computeStatus (now startTime endTime : Int) : String :=
  if endTime ≤ now then "Past"
  else if startTime ≤ now ∧ now < endTime then "On-going"
  else "Upcoming"

/-- A solution lookup call as issued at lines 269 and 300:
`(contest.name, contest.endTime, contest.platform)`. -/
def lookupCallOf (c : Contest) : String × Int × String :=
  (c.name, c.endTime, c.platform)

/-- The environment of one scan run: the wall clock read once at line
247, the solution-lookup oracle (`findYouTubeSolution` with its HTTP
call abstracted), and one per-record failure oracle for each of the
loop body's two `contest.save()` sites, so that the status save (line
264) and the later solution save (line 272) can fail independently —
in particular the trace where the status save succeeds and the
solution save then throws, leaving the record partially updated, is
representable. -/
structure ScanEnv where
  now : Int
  lookup : String → Int → String → Option String
  failStatusSave : String → Bool
  failSolutionSave : String → Bool

/-- The outcome of the loop body (lines 253-276) for one candidate:
the record's persisted state afterwards, the status write (line 264) if
one was persisted, the lookup call if one was issued, the solution
write (line 272) if one was persisted, and whether a `save()` threw. -/
structure ProcResult where
  record : Contest
  statusWrite : Option Contest
  call : Option (String × Int × String)
  solutionWrite : Option Contest
  threw : Bool
deriving Repr

/-- The loop body of `updateContestStatuses` for one candidate record:
recompute the status; if it changed, save (a failing status save throws
with the record unchanged in the store); if the new status is Past and
`solutionUrl` is falsy, issue one lookup and persist a hit (a failing
solution save throws with the status change already persisted but the
solution not — the record is left partially updated). -/
def processContest (env : ScanEnv) (c : Contest) : ProcResult :=
  let newStatus := computeStatus env.now c.startTime c.endTime
  if newStatus ≠ c.status ∧ env.failStatusSave c.name then
    { record := c, statusWrite := none, call := none,
      solutionWrite := none, threw := true }
  else
    let c1 := if newStatus ≠ c.status then { c with status := newStatus } else c
    let sw := if newStatus ≠ c.status then some c1 else none
    if newStatus = "Past" ∧ isFalsyStr c1.solutionUrl then
      match env.lookup c.name c.endTime c.platform with
      | some videoId =>
        if env.failSolutionSave c.name then
          { record := c1, statusWrite := sw, call := some (lookupCallOf c),
            solutionWrite := none, threw := true }
        else
          let c2 := { c1 with solutionUrl := some videoId }
          { record := c2, statusWrite := sw, call := some (lookupCallOf c),
            solutionWrite := some c2, threw := false }
      | none =>
        { record := c1, statusWrite := sw, call := some (lookupCallOf c),
          solutionWrite := none, threw := false }
    else
      { record := c1, statusWrite := sw, call := none,
        solutionWrite := none, threw := false }

/-- The observable outcome of one scan run: the store afterwards, the
lookup calls issued in order, and whether the run ended in the `catch`
of lines 277-279 (the job itself never propagates the error). -/
structure ScanResult where
  store : List Contest
  calls : List (String × Int × String)
  threw : Bool
deriving Repr

/-- `updateContestStatuses`: the query of line 249 selects the records
with `status ≠ 'Past'` and the loop processes them in store order; a
record whose `save()` throws aborts the loop (the single `try` wraps
the whole scan), leaving it and every later record unprocessed. The
query-then-loop of the source is rendered as one pass over the store:
non-candidates are skipped in place, which agrees with the source
because each iteration reads and writes only its own record. -/
def updateContestStatuses (env : ScanEnv) : List Contest → ScanResult
  | [] => { store := [], calls := [], threw := false }
  | c :: rest =>
    if c.status == "Past" then
      let r := updateContestStatuses env rest
      { store := c :: r.store, calls := r.calls, threw := r.threw }
    else
      let p := processContest env c
      if p.threw then
        { store := p.record :: rest, calls := p.call.toList, threw := true }
      else
        let r := updateContestStatuses env rest
        { store := p.record :: r.store, calls := p.call.toList ++ r.calls,
          threw := r.threw }

/-! ## Backfill pass (`backfillMissingSolutions`, lines 282-311) -/

/-- The query filter of lines 286-290: platform in
`['Codeforces', 'LeetCode']`, `status: 'Past'`, `solutionUrl: null`.
The MongoDB `null` query matches documents whose field is null or
missing — not the empty string — so it is `solutionUrl == none`. -/
def backfillCandidate (c : Contest) : Bool :=
  (c.platform == "Codeforces" || c.platform == "LeetCode") &&
    c.status == "Past" && c.solutionUrl == none

structure BackfillResult where
  store : List Contest
  calls : List (String × Int × String)
deriving Repr

/-- `backfillMissingSolutions`: one lookup per candidate in store
order, persisting any hit; non-candidates are untouched. -/
def backfillMissingSolutions (lookup : String → Int → String → Option String) :
    List Contest → BackfillResult
  | [] => { store := [], calls := [] }
  | c :: rest =>
    let r := backfillMissingSolutions lookup rest
    if backfillCandidate c then
      match lookup c.name c.endTime c.platform with
      | some videoId =>
        { store := { c with solutionUrl := some videoId } :: r.store,
          calls := lookupCallOf c :: r.calls }
      | none =>
        { store := c :: r.store, calls := lookupCallOf c :: r.calls }
    else
      { store := c :: r.store, calls := r.calls }

/-! ## Derived notions used by the theorems -/

/-- Whether the store already holds a record with the upsert identity
`(name, startTime)` of the input contest. -/
def hasKeyFor (store : List Contest) (c : NewContest) : Bool :=
  store.any (fun r => contestKeyMatches r c)

/-! ## Concrete fixtures for witnesses, counterexamples and scenarios -/

/-- A Codeforces feed item in phase BEFORE. -/
def cfItemFix : CFContestItem :=
  { id := 1700, name := "Codeforces Round 900", phase := "BEFORE",
    startTimeSeconds := 2000000000, durationSeconds := 7200 }

/-- A LeetCode upcoming-contest item. -/
def lcItemFix : LCContestItem :=
  { title := "Weekly Contest 400", titleSlug := "weekly-contest-400",
    startTime := 2000000000, duration := 5400 }

/-- A stored contest carrying an empty-string `solutionUrl`: non-null,
but falsy for the JavaScript guard of line 267. -/
def c2Contest : Contest :=
  { name := "Edge Round", platform := "Codeforces", duration := "1h",
    startTime := 0, endTime := 100, status := "Upcoming", url := "u",
    solutionUrl := some "" }

/-- Scan environment whose lookup always finds a video and whose
saves all succeed, at a time past `c2Contest.endTime`. -/
def c2Env : ScanEnv :=
  { now := 200, lookup := fun _ _ _ => some "dQw4w9WgXcQ",
    failStatusSave := fun _ => false, failSolutionSave := fun _ => false }

/-- A stored contest with a genuine (non-empty) `solutionUrl`. -/
def c2SetContest : Contest :=
  { name := "Solved Round", platform := "LeetCode", duration := "1h",
    startTime := 0, endTime := 100, status := "Upcoming", url := "u",
    solutionUrl := some "abc123" }

/-- An ended contest still stored as Upcoming, whose save fails. -/
def c5A : Contest :=
  { name := "A", platform := "Codeforces", duration := "1h",
    startTime := 0, endTime := 500, status := "Upcoming", url := "ua",
    solutionUrl := none }

/-- A second ended contest stored as Upcoming, after `c5A` in the store. -/
def c5B : Contest :=
  { name := "B", platform := "Codeforces", duration := "1h",
    startTime := 0, endTime := 500, status := "Upcoming", url := "ub",
    solutionUrl := none }

/-- Scan environment in which the status save for record "A" throws. -/
def c5Env : ScanEnv :=
  { now := 1000, lookup := fun _ _ _ => none,
    failStatusSave := fun n => n == "A",
    failSolutionSave := fun _ => false }

/-- Scan environment in which record "A"'s status save succeeds, its
lookup finds a video, and the subsequent solution save throws — the
partial-update failure trace. -/
def c5PartialEnv : ScanEnv :=
  { now := 1000, lookup := fun _ _ _ => some "vidA",
    failStatusSave := fun _ => false,
    failSolutionSave := fun n => n == "A" }

/-- Scan environment with no failures and no solutions found. -/
def calmEnv : ScanEnv :=
  { now := 1000, lookup := fun _ _ _ => none,
    failStatusSave := fun _ => false, failSolutionSave := fun _ => false }

/-- An Upcoming contest that ended before `calmEnv.now`. -/
def c1Contest : Contest :=
  { name := "C1 Round", platform := "HackerEarth", duration := "1h",
    startTime := 0, endTime := 500, status := "Upcoming", url := "u",
    solutionUrl := none }

/-- A Past Codeforces contest, with the given solution field. -/
def pastCF (n : String) (sol : Option String) : Contest :=
  { name := n, platform := "Codeforces", duration := "2h", startTime := 0,
    endTime := 7200000, status := "Past", url := "u", solutionUrl := sol }

/-- Five Past Codeforces contests, three of them missing a solution. -/
def store5 : List Contest :=
  [pastCF "R1" none, pastCF "R2" (some "v2"), pastCF "R3" none,
   pastCF "R4" (some "v4"), pastCF "R5" none]

/-- A lookup oracle that never finds a video. -/
def lookupNoneFix : String → Int → String → Option String :=
  fun _ _ _ => none

/-- A stored record matching `cfItemFix`'s upsert identity, already
Past and carrying a solution. -/
def c10Stored : Contest :=
  { name := "Codeforces Round 900", platform := "Codeforces",
    duration := "2h", startTime := 2000000000000,
    endTime := 2000007200000, status := "Past", url := "u",
    solutionUrl := some "vid9" }

/-- The adapter object the Codeforces mapping produces for
`cfItemFix`; its upsert identity matches `c10Stored`. -/
def cfMappedFix : NewContest :=
  { name := "Codeforces Round 900", platform := "Codeforces",
    duration := formatDuration 7200,
    startTime := 2000000000000, endTime := 2000007200000,
    status := "Upcoming",
    url := "https://codeforces.com/contests/1700" }

/-! # Theorems -/

/-- C4 (counterexample): the claimed test vector `formatDuration 90 = "1m"`
fails on the code: 90 seconds is 1.5 minutes, `Math.round(1.5) = 2`, so
the formatter returns `"2m"`. -/
theorem C4_formatDuration_claim_false : formatDuration 90 ≠ "1m" := by decide

/-- C4 (amended): the duration formatter returns the empty string for
every input `d ≤ 0`, `"1d 1h"` for `d = 90000`, `"1h"` for `d = 3600`,
and `"2m"` (not the spec's `"1m"`) for `d = 90`. -/
theorem C4_formatDuration_vectors (d : Int) :
    (d ≤ 0 → formatDuration d = "") ∧
    formatDuration 90000 = "1d 1h" ∧
    formatDuration 3600 = "1h" ∧
    formatDuration 90 = "2m" := by
  refine ⟨fun h => ?_, by decide, by decide, by decide⟩
  unfold formatDuration
  rw [if_pos h]

/-- C4 (witness): the amended vectors evaluated at concrete inputs,
including a negative duration for the guarded branch. -/
theorem C4_formatDuration_vectors_witness :
    formatDuration (-3600) = "" ∧
    formatDuration 90000 = "1d 1h" ∧
    formatDuration 3600 = "1h" ∧
    formatDuration 90 = "2m" :=
  ⟨(C4_formatDuration_vectors (-3600)).1 (by decide),
   (C4_formatDuration_vectors 0).2.1,
   (C4_formatDuration_vectors 0).2.2.1,
   (C4_formatDuration_vectors 0).2.2.2⟩

/-- C9: the formatter's components are not normalized after rounding:
3599 seconds rounds its minutes component up to 60, giving `"60m"`
rather than `"1h"`, and 171000 seconds (47.5h) rounds its remainder
hours up to 24, giving `"1d 24h"` rather than `"2d"`. -/
theorem C9_formatDuration_not_normalized :
    formatDuration 3599 = "60m" ∧ formatDuration 3599 ≠ "1h" ∧
    formatDuration 171000 = "1d 24h" ∧ formatDuration 171000 ≠ "2d" := by
  refine ⟨by decide, by decide, by decide, by decide⟩

/-- C7: every solution-finder request carries `publishedAfter` equal to
the contest's end time, asks for a single result ordered by date (most
recently published first), restricts to videos, and carries the fixed
trusted-channel restriction exactly when the platform is Codeforces or
LeetCode. -/
theorem C7_buildYTParams_request_shape (n : String) (t : Int) (p : String) :
    (buildYTParams n t p).publishedAfter = t ∧
    (buildYTParams n t p).maxResults = 1 ∧
    (buildYTParams n t p).order = "date" ∧
    (buildYTParams n t p).type = "video" ∧
    (buildYTParams n t p).channelId =
      (if p = "Codeforces" ∨ p = "LeetCode"
       then some TLE_ELIMINATORS_CHANNEL_ID else none) := by
  unfold buildYTParams
  by_cases h : p = "Codeforces" ∨ p = "LeetCode" <;> simp [h]

/-- C6: a failed platform adapter is equivalent to one that returned an
empty feed — it contributes no contests and leaves the other three
adapters' contributions and the upsert unchanged (the per-adapter catch
never lets the exception escape `fetchAndStoreContests`); concretely, a
cycle in which Codeforces and LeetCode each return one contest and
HackerEarth throws persists exactly the two successful contests. -/
theorem C6_adapter_failure_isolated (now : Int) (e : String)
    (cf : Except String CFResponse)
    (lc : Except String (Option (List LCContestItem)))
    (he : Except String (Option (List HEContestItem)))
    (tc : Except String (Option (List TCChallengeItem)))
    (store : List Contest) :
    fetchAndStoreContests now (Except.error e) lc he tc store =
      fetchAndStoreContests now (Except.ok ⟨"OK", []⟩) lc he tc store ∧
    fetchAndStoreContests now cf (Except.error e) he tc store =
      fetchAndStoreContests now cf (Except.ok none) he tc store ∧
    fetchAndStoreContests now cf lc (Except.error e) tc store =
      fetchAndStoreContests now cf lc (Except.ok none) tc store ∧
    fetchAndStoreContests now cf lc he (Except.error e) store =
      fetchAndStoreContests now cf lc he (Except.ok none) store ∧
    (fetchAndStoreContests 0 (Except.ok ⟨"OK", [cfItemFix]⟩)
        (Except.ok (some [lcItemFix])) (Except.error "network error")
        (Except.ok none) []).length = 2 := by
  refine ⟨rfl, rfl, rfl, rfl, by decide⟩

/-- After an upsert of `c`, the store holds a record with `c`'s
identity key: either the matched record was rewritten to `c`'s fields,
or `insertDoc c` was inserted. -/
theorem hasKeyFor_upsertOne_self (s : List Contest) (c : NewContest) :
    hasKeyFor (upsertOne s c) c = true := by
  induction s with
  | nil => simp [upsertOne, hasKeyFor, insertDoc, contestKeyMatches]
  | cons r rs ih =>
    cases hm : contestKeyMatches r c with
    | true =>
      simp only [upsertOne, hm, eq_self_iff_true, if_true]
      simp [hasKeyFor, List.any_cons, applySet, contestKeyMatches]
    | false =>
      simp only [upsertOne, hm, Bool.false_eq_true, if_false, hasKeyFor,
        List.any_cons, Bool.or_eq_true]
      exact Or.inr ih

/-- An upsert never removes an identity key already present: the only
record it rewrites is one matching the incoming key, and the rewrite
keeps (indeed re-asserts) that key. -/
theorem hasKeyFor_upsertOne_mono (s : List Contest) (c c' : NewContest)
    (h : hasKeyFor s c = true) : hasKeyFor (upsertOne s c') c = true := by
  induction s with
  | nil => simp [hasKeyFor] at h
  | cons r rs ih =>
    simp only [hasKeyFor, List.any_cons, Bool.or_eq_true] at h
    cases hm : contestKeyMatches r c' with
    | true =>
      simp only [upsertOne, hm, eq_self_iff_true, if_true, hasKeyFor,
        List.any_cons, Bool.or_eq_true]
      rcases h with h | h
      · have h1 : r.name = c.name ∧ r.startTime = c.startTime := by
          simpa [contestKeyMatches] using h
        have h2 : r.name = c'.name ∧ r.startTime = c'.startTime := by
          simpa [contestKeyMatches] using hm
        left
        simp only [contestKeyMatches, applySet, Bool.and_eq_true, beq_iff_eq]
        exact ⟨by rw [← h2.1]; exact h1.1, by rw [← h2.2]; exact h1.2⟩
      · exact Or.inr h
    | false =>
      simp only [upsertOne, hm, Bool.false_eq_true, if_false, hasKeyFor,
        List.any_cons, Bool.or_eq_true]
      rcases h with h | h
      · exact Or.inl h
      · exact Or.inr (ih h)

/-- A whole batch of upserts preserves an identity key already present. -/
theorem hasKeyFor_upsertBatch_mono (batch : List NewContest) :
    ∀ s : List Contest, ∀ c : NewContest, hasKeyFor s c = true →
      hasKeyFor (upsertBatch s batch) c = true := by
  induction batch with
  | nil => intro s c h; simpa [upsertBatch] using h
  | cons c' cs ih =>
    intro s c h
    simpa [upsertBatch] using ih (upsertOne s c') c (hasKeyFor_upsertOne_mono s c c' h)

/-- After applying a batch, every identity key of the batch is present
in the store. -/
theorem hasKeyFor_upsertBatch_self (batch : List NewContest) :
    ∀ s : List Contest, ∀ c ∈ batch, hasKeyFor (upsertBatch s batch) c = true := by
  induction batch with
  | nil => intro s c h; simp at h
  | cons c0 cs ih =>
    intro s c hc
    rcases List.mem_cons.mp hc with rfl | hc
    · simpa [upsertBatch] using
        hasKeyFor_upsertBatch_mono cs (upsertOne s c) c (hasKeyFor_upsertOne_self s c)
    · simpa [upsertBatch] using ih (upsertOne s c0) c hc

/-- An upsert whose identity key is already present updates in place:
the store's cardinality is unchanged. -/
theorem length_upsertOne_of_key (s : List Contest) (c : NewContest)
    (h : hasKeyFor s c = true) : (upsertOne s c).length = s.length := by
  induction s with
  | nil => simp [hasKeyFor] at h
  | cons r rs ih =>
    cases hm : contestKeyMatches r c with
    | true => simp [upsertOne, hm]
    | false =>
      simp only [hasKeyFor, List.any_cons, Bool.or_eq_true] at h
      rcases h with h | h
      · rw [hm] at h; exact absurd h (by simp)
      · simp only [upsertOne, hm, Bool.false_eq_true, if_false,
          List.length_cons]
        rw [ih h]

/-- A batch all of whose identity keys are already present changes no
cardinality. -/
theorem length_upsertBatch_of_keys (batch : List NewContest) :
    ∀ s : List Contest, (∀ c ∈ batch, hasKeyFor s c = true) →
      (upsertBatch s batch).length = s.length := by
  induction batch with
  | nil => intro s _; simp [upsertBatch]
  | cons c0 cs ih =>
    intro s h
    have h0 : (upsertOne s c0).length = s.length :=
      length_upsertOne_of_key s c0 (h c0 (List.mem_cons_self c0 cs))
    have hcs : ∀ c ∈ cs, hasKeyFor (upsertOne s c0) c = true := fun c hc =>
      hasKeyFor_upsertOne_mono s c c0 (h c (List.mem_cons_of_mem c0 hc))
    calc (upsertBatch s (c0 :: cs)).length
        = (upsertBatch (upsertOne s c0) cs).length := by simp [upsertBatch]
      _ = (upsertOne s c0).length := ih (upsertOne s c0) hcs
      _ = s.length := h0

/-- C3: the bulk upsert is idempotent with respect to record identity —
applying the same adapter batch a second time leaves the number of
stored records unchanged, because the first application left a record
with each input's `(name, startTime)` key in the store, so the second
application only updates in place and never inserts. -/
theorem C3_upsert_idempotent_cardinality (store : List Contest)
    (batch : List NewContest) :
    (upsertBatch (upsertBatch store batch) batch).length =
      (upsertBatch store batch).length :=
  length_upsertBatch_of_keys batch (upsertBatch store batch)
    (fun c hc => hasKeyFor_upsertBatch_self batch store c hc)

/-- C8: the backfill pass issues exactly one lookup per stored contest
matching its query — status Past, `solutionUrl` null, platform
Codeforces or LeetCode — in store order, and no lookup for any other
contest (the call list is exactly the image of the filtered store);
in particular, against five Past Codeforces contests of which three
have null `solutionUrl`, it issues exactly three lookup calls. -/
theorem C8_backfill_one_lookup_per_candidate
    (lookup : String → Int → String → Option String) (store : List Contest) :
    (backfillMissingSolutions lookup store).calls =
      (store.filter backfillCandidate).map lookupCallOf ∧
    (backfillMissingSolutions lookup store).calls.length =
      (store.filter backfillCandidate).length ∧
    (backfillMissingSolutions lookupNoneFix store5).calls.length = 3 := by
  have hmain : ∀ s : List Contest,
      (backfillMissingSolutions lookup s).calls =
        (s.filter backfillCandidate).map lookupCallOf := by
    intro s
    induction s with
    | nil => rfl
    | cons c rest ih =>
      cases hcand : backfillCandidate c with
      | true =>
        cases hl : lookup c.name c.endTime c.platform with
        | none =>
          simp [backfillMissingSolutions, hcand, hl, List.filter_cons, ih]
        | some v =>
          simp [backfillMissingSolutions, hcand, hl, List.filter_cons, ih]
      | false =>
        simp [backfillMissingSolutions, hcand, List.filter_cons, ih]
  refine ⟨hmain store, ?_, by decide⟩
  rw [hmain store, List.length_map]

/-- When the record's save cannot fail, its loop-body processing does
not throw, leaves its status at the recomputed value, and persists a
status write exactly when the recomputed status differs from the
stored one. -/
theorem processContest_noFail (env : ScanEnv) (c : Contest)
    (hf1 : env.failStatusSave c.name = false)
    (hf2 : env.failSolutionSave c.name = false) :
    (processContest env c).threw = false ∧
    (processContest env c).record.status =
      computeStatus env.now c.startTime c.endTime ∧
    (processContest env c).statusWrite =
      (if computeStatus env.now c.startTime c.endTime ≠ c.status
       then some { c with status := computeStatus env.now c.startTime c.endTime }
       else none) := by
  by_cases h1 : computeStatus env.now c.startTime c.endTime ≠ c.status <;>
    by_cases h2 : computeStatus env.now c.startTime c.endTime = "Past" <;>
      cases hl : env.lookup c.name c.endTime c.platform <;>
        cases hfs : isFalsyStr c.solutionUrl <;>
          simp_all [processContest, hf1, hf2, apply_ite Contest.solutionUrl,
            apply_ite Contest.status, ite_self]

/-- With no failing saves, the scan does not throw and rewrites the
store pointwise: Past records are untouched, every other record becomes
its processed version. -/
theorem updateContestStatuses_noFail_store (env : ScanEnv)
    (hf1 : ∀ s, env.failStatusSave s = false)
    (hf2 : ∀ s, env.failSolutionSave s = false) (store : List Contest) :
    (updateContestStatuses env store).threw = false ∧
    (updateContestStatuses env store).store =
      store.map (fun c => if c.status == "Past" then c
                          else (processContest env c).record) := by
  induction store with
  | nil => exact ⟨rfl, rfl⟩
  | cons c rest ih =>
    cases hp : c.status == "Past" with
    | true =>
      simp only [updateContestStatuses, hp, if_true, List.map_cons]
      exact ⟨ih.1, by rw [ih.2]⟩
    | false =>
      have hth : (processContest env c).threw = false :=
        (processContest_noFail env c (hf1 c.name) (hf2 c.name)).1
      simp only [updateContestStatuses, hp, Bool.false_eq_true, if_false,
        hth, List.map_cons]
      exact ⟨ih.1, by rw [ih.2]⟩

/-- C1: under a scan in which no store write fails, the scan does not
throw; every stored contest in status Past is left exactly as it was
(Past is terminal for the scan: the query excludes it); every other
stored contest ends the scan with status equal to the pure transition
function of `(now, startTime, endTime)`, and a status write is
persisted for it exactly when that recomputed status differs from the
stored one; and the transition function is the claimed one. -/
theorem C1_lifecycle_scan (env : ScanEnv) (store : List Contest)
    (hf1 : ∀ s, env.failStatusSave s = false)
    (hf2 : ∀ s, env.failSolutionSave s = false) :
    (updateContestStatuses env store).threw = false ∧
    (∀ i : Nat, ∀ c : Contest, store[i]? = some c →
      ∃ c', (updateContestStatuses env store).store[i]? = some c' ∧
        (c.status = "Past" → c' = c) ∧
        (c.status ≠ "Past" →
          c'.status = computeStatus env.now c.startTime c.endTime ∧
          (processContest env c).statusWrite =
            (if computeStatus env.now c.startTime c.endTime ≠ c.status
             then some { c with status := computeStatus env.now c.startTime c.endTime }
             else none))) ∧
    (∀ now s e : Int, computeStatus now s e =
      if now ≥ e then "Past"
      else if s ≤ now ∧ now < e then "On-going" else "Upcoming") := by
  obtain ⟨hthrew, hstore⟩ := updateContestStatuses_noFail_store env hf1 hf2 store
  refine ⟨hthrew, ?_, fun now s e => rfl⟩
  intro i c hc
  cases hp : c.status == "Past" with
  | true =>
    have hcs : c.status = "Past" := by simpa using hp
    refine ⟨c, ?_, ?_, ?_⟩
    · rw [hstore, List.getElem?_map, hc]
      simp [hcs]
    · intro _
      rfl
    · intro hcon
      exact (hcon hcs).elim
  | false =>
    have hcs : ¬ c.status = "Past" := by simpa using hp
    have hps := processContest_noFail env c (hf1 c.name) (hf2 c.name)
    refine ⟨(processContest env c).record, ?_, ?_, ?_⟩
    · rw [hstore, List.getElem?_map, hc]
      simp [hcs]
    · intro hcp
      exact (hcs hcp).elim
    · intro _
      exact ⟨hps.2.1, hps.2.2⟩

/-- C1 (witness): the scan at `calmEnv` over a single ended-but-still-
Upcoming contest, instantiating the per-record clause at index 0. -/
theorem C1_lifecycle_scan_witness :
    (updateContestStatuses calmEnv [c1Contest]).threw = false ∧
    (∃ c', (updateContestStatuses calmEnv [c1Contest]).store[0]? = some c' ∧
      (c1Contest.status = "Past" → c' = c1Contest) ∧
      (c1Contest.status ≠ "Past" →
        c'.status = computeStatus calmEnv.now c1Contest.startTime c1Contest.endTime ∧
        (processContest calmEnv c1Contest).statusWrite =
          (if computeStatus calmEnv.now c1Contest.startTime c1Contest.endTime ≠ c1Contest.status
           then some { c1Contest with
             status := computeStatus calmEnv.now c1Contest.startTime c1Contest.endTime }
           else none))) := by
  have h := C1_lifecycle_scan calmEnv [c1Contest] (fun _ => rfl) (fun _ => rfl)
  exact ⟨h.1, h.2.1 0 c1Contest rfl⟩

/-- Processing a record whose `solutionUrl` is a non-empty value leaves
that value untouched and issues no lookup, whatever the environment:
the guard `!contest.solutionUrl` is false for it. -/
theorem processContest_preserves_solution (env : ScanEnv) (c : Contest)
    (v : String) (hv : c.solutionUrl = some v) (hne : v ≠ "") :
    (processContest env c).record.solutionUrl = some v ∧
    (processContest env c).call = none := by
  have hfalsy : isFalsyStr c.solutionUrl = false := by
    rw [hv]; simpa [isFalsyStr] using hne
  by_cases h1 : computeStatus env.now c.startTime c.endTime ≠ c.status <;>
    cases hfs : env.failStatusSave c.name <;>
      cases hfs2 : env.failSolutionSave c.name <;>
        simp_all [processContest, apply_ite Contest.solutionUrl, ite_self]

/-- Across a whole scan, a record holding a non-empty `solutionUrl`
keeps it, also when earlier records throw and abort the loop. -/
theorem scan_preserves_solution (env : ScanEnv) (store : List Contest) :
    ∀ i : Nat, ∀ c : Contest, store[i]? = some c →
      ∀ v : String, c.solutionUrl = some v → v ≠ "" →
      ∃ c', (updateContestStatuses env store).store[i]? = some c' ∧
        c'.solutionUrl = some v := by
  induction store with
  | nil =>
    intro i c hc
    simp at hc
  | cons d rest ih =>
    intro i c hc v hv hne
    cases hp : d.status == "Past" with
    | true =>
      cases i with
      | zero =>
        have hdc : d = c := by simpa using hc
        subst hdc
        exact ⟨d, by simp [updateContestStatuses, hp], hv⟩
      | succ n =>
        have hc' : rest[n]? = some c := by simpa using hc
        obtain ⟨c', h1, h2⟩ := ih n c hc' v hv hne
        exact ⟨c', by simpa [updateContestStatuses, hp] using h1, h2⟩
    | false =>
      cases hth : (processContest env d).threw with
      | true =>
        cases i with
        | zero =>
          have hdc : d = c := by simpa using hc
          subst hdc
          exact ⟨(processContest env d).record,
            by simp [updateContestStatuses, hp, hth],
            (processContest_preserves_solution env d v hv hne).1⟩
        | succ n =>
          have hc' : rest[n]? = some c := by simpa using hc
          exact ⟨c, by simpa [updateContestStatuses, hp, hth] using hc', hv⟩
      | false =>
        cases i with
        | zero =>
          have hdc : d = c := by simpa using hc
          subst hdc
          exact ⟨(processContest env d).record,
            by simp [updateContestStatuses, hp, hth],
            (processContest_preserves_solution env d v hv hne).1⟩
        | succ n =>
          have hc' : rest[n]? = some c := by simpa using hc
          obtain ⟨c', h1, h2⟩ := ih n c hc' v hv hne
          exact ⟨c', by simpa [updateContestStatuses, hp, hth] using h1, h2⟩

/-- The backfill pass leaves every record outside its query filter
exactly as stored. -/
theorem backfill_preserves_nonCandidate
    (lookup : String → Int → String → Option String) (store : List Contest) :
    ∀ i : Nat, ∀ c : Contest, store[i]? = some c →
      backfillCandidate c = false →
      (backfillMissingSolutions lookup store).store[i]? = some c := by
  induction store with
  | nil =>
    intro i c hc
    simp at hc
  | cons d rest ih =>
    intro i c hc hcand
    cases hcd : backfillCandidate d with
    | true =>
      cases i with
      | zero =>
        have hdc : d = c := by simpa using hc
        rw [hdc, hcand] at hcd
        cases hcd
      | succ n =>
        have hc' : rest[n]? = some c := by simpa using hc
        cases hl : lookup d.name d.endTime d.platform <;>
          simpa [backfillMissingSolutions, hcd, hl] using ih n c hc' hcand
    | false =>
      cases i with
      | zero =>
        have hdc : d = c := by simpa using hc
        subst hdc
        simp [backfillMissingSolutions, hcd]
      | succ n =>
        have hc' : rest[n]? = some c := by simpa using hc
        simpa [backfillMissingSolutions, hcd] using ih n c hc' hcand

/-- C2 (counterexample to the claim as stated): a stored contest whose
`solutionUrl` is the non-null value `""` is re-looked-up and
overwritten by the next scan that moves it to Past, because the
JavaScript guard `!contest.solutionUrl` treats the empty string as
unset. -/
theorem C2_cex_empty_string_overwritten :
    c2Contest.solutionUrl = some "" ∧
    (updateContestStatuses c2Env [c2Contest]).store =
      [{ c2Contest with status := "Past", solutionUrl := some "dQw4w9WgXcQ" }] ∧
    (updateContestStatuses c2Env [c2Contest]).calls = [lookupCallOf c2Contest] := by
  refine ⟨rfl, by decide, by decide⟩

/-- C2 (amended): for every stored contest whose `solutionUrl` is a
non-null, non-empty value, no lifecycle scan and no backfill run
overwrites the value or issues another lookup for that contest: the
scan's lookup guard fails on it, and it is outside the backfill query. -/
theorem C2_solution_never_overwritten (env : ScanEnv)
    (lookup : String → Int → String → Option String)
    (store : List Contest) (i : Nat) (c : Contest) (v : String)
    (hc : store[i]? = some c) (hv : c.solutionUrl = some v) (hne : v ≠ "") :
    (∃ c', (updateContestStatuses env store).store[i]? = some c' ∧
      c'.solutionUrl = some v) ∧
    (processContest env c).call = none ∧
    (backfillMissingSolutions lookup store).store[i]? = some c ∧
    backfillCandidate c = false := by
  have hcand : backfillCandidate c = false := by
    simp [backfillCandidate, hv]
  exact ⟨scan_preserves_solution env store i c hc v hv hne,
    (processContest_preserves_solution env c v hv hne).2,
    backfill_preserves_nonCandidate lookup store i c hc hcand, hcand⟩

/-- C2 (witness): the amended statement at a concrete store holding one
contest with `solutionUrl = some "abc123"`, under an environment whose
lookup always succeeds. -/
theorem C2_solution_never_overwritten_witness :
    (∃ c', (updateContestStatuses c2Env [c2SetContest]).store[0]? = some c' ∧
      c'.solutionUrl = some "abc123") ∧
    (processContest c2Env c2SetContest).call = none ∧
    (backfillMissingSolutions lookupNoneFix [c2SetContest]).store[0]? =
      some c2SetContest ∧
    backfillCandidate c2SetContest = false :=
  C2_solution_never_overwritten c2Env lookupNoneFix [c2SetContest] 0
    c2SetContest "abc123" rfl rfl (by decide)

/-- C5 (counterexample to the claim as stated): with two ended
contests both stored as Upcoming, a store write failure on the first
leaves the second completely unprocessed — its recomputed status would
be Past, but it is still Upcoming after the scan, because the single
`try`/`catch` wraps the whole loop. -/
theorem C5_cex_write_failure_skips_rest :
    computeStatus c5Env.now c5B.startTime c5B.endTime = "Past" ∧
    c5B.status = "Upcoming" ∧
    (updateContestStatuses c5Env [c5A, c5B]).store = [c5A, c5B] ∧
    (updateContestStatuses c5Env [c5A, c5B]).threw = true := by
  refine ⟨by decide, rfl, by decide, by decide⟩

/-- One-step unfolding of the scan over a non-empty store. -/
theorem updateContestStatuses_cons (env : ScanEnv) (c : Contest)
    (rest : List Contest) :
    updateContestStatuses env (c :: rest) =
      if c.status == "Past" then
        { store := c :: (updateContestStatuses env rest).store,
          calls := (updateContestStatuses env rest).calls,
          threw := (updateContestStatuses env rest).threw }
      else if (processContest env c).threw then
        { store := (processContest env c).record :: rest,
          calls := (processContest env c).call.toList, threw := true }
      else
        { store := (processContest env c).record ::
            (updateContestStatuses env rest).store,
          calls := (processContest env c).call.toList ++
            (updateContestStatuses env rest).calls,
          threw := (updateContestStatuses env rest).threw } := rfl

/-- C5 (amended): a store write failure on one record aborts the scan
of the remaining records: every record before the failing one keeps its
update, the failing record keeps exactly the writes that succeeded
before the throw — `(processContest env c).record`, which is the
partially-updated record with its status change persisted when the
status save succeeded and only the later solution save threw — and
every record after it is left unchanged (its recomputation and write
are not attempted in this run); the error is caught at scan level, so
the job itself does not propagate it. -/
theorem C5_write_failure_aborts_scan (env : ScanEnv) (pre : List Contest)
    (c : Contest) (rest : List Contest)
    (hpre : (updateContestStatuses env pre).threw = false)
    (hc : ¬ c.status = "Past")
    (hthrew : (processContest env c).threw = true) :
    updateContestStatuses env (pre ++ c :: rest) =
      { store := (updateContestStatuses env pre).store ++
          (processContest env c).record :: rest,
        calls := (updateContestStatuses env pre).calls ++
          (processContest env c).call.toList,
        threw := true } := by
  induction pre with
  | nil =>
    have hp : (c.status == "Past") = false := by simpa using hc
    simp [updateContestStatuses, hp, hthrew]
  | cons d pre' ih =>
    cases hp : d.status == "Past" with
    | true =>
      have hpre' : (updateContestStatuses env pre').threw = false := by
        simpa [updateContestStatuses, hp] using hpre
      rw [List.cons_append, updateContestStatuses_cons, hp, if_pos rfl,
        updateContestStatuses_cons, hp, if_pos rfl, ih hpre']
      simp
    | false =>
      cases hth : (processContest env d).threw with
      | true =>
        rw [show (updateContestStatuses env (d :: pre')).threw = true by
          simp [updateContestStatuses, hp, hth]] at hpre
        cases hpre
      | false =>
        have hpre' : (updateContestStatuses env pre').threw = false := by
          simpa [updateContestStatuses, hp, hth] using hpre
        rw [List.cons_append, updateContestStatuses_cons, hp,
          if_neg (by simp), hth, if_neg (by simp),
          updateContestStatuses_cons, hp, if_neg (by simp), hth,
          if_neg (by simp), ih hpre']
        simp [List.append_assoc]

/-- C5 (witness): the amended statement at the concrete two-contest
store in which record "A"'s status save succeeds, its lookup finds a
video, and the subsequent solution save throws — together with the
explicit evaluation showing the failing record was left partially
updated (status Past persisted, solution not) while record "B" was
left unchanged. -/
theorem C5_write_failure_aborts_scan_witness :
    (updateContestStatuses c5PartialEnv ([] ++ c5A :: [c5B]) =
      { store := (updateContestStatuses c5PartialEnv []).store ++
          (processContest c5PartialEnv c5A).record :: [c5B],
        calls := (updateContestStatuses c5PartialEnv []).calls ++
          (processContest c5PartialEnv c5A).call.toList,
        threw := true }) ∧
    (processContest c5PartialEnv c5A).record = { c5A with status := "Past" } ∧
    (processContest c5PartialEnv c5A).record.solutionUrl = none :=
  ⟨C5_write_failure_aborts_scan c5PartialEnv [] c5A [c5B] rfl (by decide)
      (by decide),
    by decide, by decide⟩

/-- Every contest any adapter produces carries `status = "Upcoming"`. -/
theorem adapters_status_upcoming (now : Int)
    (cf : Except String CFResponse)
    (lc : Except String (Option (List LCContestItem)))
    (he : Except String (Option (List HEContestItem)))
    (tc : Except String (Option (List TCChallengeItem))) :
    ∀ c ∈ cfAdapter cf ++ lcAdapter lc ++ heAdapter he ++ tcAdapter now tc,
      c.status = "Upcoming" := by
  intro c hc
  simp only [List.mem_append] at hc
  rcases hc with ((hc | hc) | hc) | hc
  · cases cf with
    | error e => simp [cfAdapter] at hc
    | ok r =>
      simp only [cfAdapter] at hc
      split at hc
      · obtain ⟨a, _, rfl⟩ := List.mem_map.mp hc
        rfl
      · simp at hc
  · cases lc with
    | error e => simp [lcAdapter] at hc
    | ok o =>
      cases o with
      | none => simp [lcAdapter] at hc
      | some items =>
        obtain ⟨a, _, rfl⟩ := List.mem_map.mp (by simpa [lcAdapter] using hc)
        rfl
  · cases he with
    | error e => simp [heAdapter] at hc
    | ok o =>
      cases o with
      | none => simp [heAdapter] at hc
      | some items =>
        simp only [heAdapter] at hc
        obtain ⟨a, _, rfl⟩ := List.mem_map.mp hc
        rfl
  · cases tc with
    | error e => simp [tcAdapter] at hc
    | ok o =>
      cases o with
      | none => simp [tcAdapter] at hc
      | some items =>
        simp only [tcAdapter] at hc
        obtain ⟨a, _, rfl⟩ := List.mem_map.mp hc
        rfl

/-- One upsert leaves every pre-existing record in place: at each
position the record is untouched or rewritten by `$set`, which never
touches `solutionUrl`, stamps the input's `status`, and preserves the
record's identity key (the `$set` values for `name`/`startTime` equal
the matched record's, by the match itself). -/
theorem upsertOne_frame (c : NewContest) :
    ∀ s : List Contest, ∀ i : Nat, ∀ r : Contest, s[i]? = some r →
      ∃ r', (upsertOne s c)[i]? = some r' ∧
        r'.name = r.name ∧ r'.startTime = r.startTime ∧
        r'.solutionUrl = r.solutionUrl ∧ (r' = r ∨ r'.status = c.status) := by
  intro s
  induction s with
  | nil =>
    intro i r hr
    simp at hr
  | cons x xs ih =>
    intro i r hr
    cases hm : contestKeyMatches x c with
    | true =>
      cases i with
      | zero =>
        have hxr : x = r := by simpa using hr
        subst hxr
        have hkey : x.name = c.name ∧ x.startTime = c.startTime := by
          simpa [contestKeyMatches] using hm
        exact ⟨applySet x c, by simp [upsertOne, hm], hkey.1.symm,
          hkey.2.symm, rfl, Or.inr rfl⟩
      | succ n =>
        have hr' : xs[n]? = some r := by simpa using hr
        exact ⟨r, by simpa [upsertOne, hm] using hr', rfl, rfl, rfl, Or.inl rfl⟩
    | false =>
      cases i with
      | zero =>
        have hxr : x = r := by simpa using hr
        subst hxr
        exact ⟨x, by simp [upsertOne, hm], rfl, rfl, rfl, Or.inl rfl⟩
      | succ n =>
        have hr' : xs[n]? = some r := by simpa using hr
        obtain ⟨r', h1, h2, h3, h4, h5⟩ := ih n r hr'
        exact ⟨r', by simpa [upsertOne, hm] using h1, h2, h3, h4, h5⟩

/-- A whole batch of upserts with every input in status Upcoming leaves
each pre-existing record untouched or re-stamped to Upcoming, with its
identity key and its `solutionUrl` unchanged in either case. -/
theorem upsertBatch_frame (batch : List NewContest)
    (hb : ∀ c ∈ batch, c.status = "Upcoming") :
    ∀ s : List Contest, ∀ i : Nat, ∀ r : Contest, s[i]? = some r →
      ∃ r', (upsertBatch s batch)[i]? = some r' ∧
        r'.name = r.name ∧ r'.startTime = r.startTime ∧
        r'.solutionUrl = r.solutionUrl ∧ (r' = r ∨ r'.status = "Upcoming") := by
  induction batch with
  | nil =>
    intro s i r hr
    exact ⟨r, hr, rfl, rfl, rfl, Or.inl rfl⟩
  | cons c cs ih =>
    intro s i r hr
    obtain ⟨r1, h1, hn1, ht1, h2, h3⟩ := upsertOne_frame c s i r hr
    obtain ⟨r', h1', hn1', ht1', h2', h3'⟩ :=
      ih (fun x hx => hb x (List.mem_cons_of_mem c hx)) (upsertOne s c) i r1 h1
    refine ⟨r', by simpa [upsertBatch] using h1', hn1'.trans hn1,
      ht1'.trans ht1, h2'.trans h2, ?_⟩
    rcases h3' with rfl | h3'
    · rcases h3 with rfl | h3
      · exact Or.inl rfl
      · exact Or.inr (h3.trans (hb c (List.mem_cons_self c cs)))
    · exact Or.inr h3'

/-- Matching against an input contest's identity key depends only on
the record's `name` and `startTime`. -/
theorem contestKeyMatches_congr (a b : Contest) (c : NewContest)
    (hn : a.name = b.name) (ht : a.startTime = b.startTime) :
    contestKeyMatches a c = contestKeyMatches b c := by
  simp [contestKeyMatches, hn, ht]

/-- `updateOne` updates the first matching record: when the record at
position `i` matches the input's key and no earlier record does, the
upsert rewrites exactly that record with the `$set` fields. -/
theorem upsertOne_first_match (c : NewContest) :
    ∀ s : List Contest, ∀ i : Nat, ∀ r : Contest, s[i]? = some r →
      contestKeyMatches r c = true →
      (∀ j : Nat, j < i → ∀ rj : Contest, s[j]? = some rj →
        contestKeyMatches rj c = false) →
      (upsertOne s c)[i]? = some (applySet r c) := by
  intro s
  induction s with
  | nil =>
    intro i r hr
    simp at hr
  | cons x xs ih =>
    intro i r hr hm hfirst
    cases i with
    | zero =>
      have hxr : x = r := by simpa using hr
      subst hxr
      simp [upsertOne, hm]
    | succ n =>
      have hx : contestKeyMatches x c = false :=
        hfirst 0 (Nat.succ_pos n) x (by simp)
      have hr' : xs[n]? = some r := by simpa using hr
      have hfirst' : ∀ j : Nat, j < n → ∀ rj : Contest, xs[j]? = some rj →
          contestKeyMatches rj c = false := fun j hj rj hrj =>
        hfirst (j + 1) (Nat.succ_lt_succ hj) rj (by simpa using hrj)
      simpa [upsertOne, hx] using ih n r hr' hm hfirst'

/-- When some batch element matches the record at position `i` and no
earlier stored record matches that element's key, the batch actually
rewrites the record: it ends the fetch cycle with status Upcoming.
(The key of every position is invariant under the preceding upserts,
so the first-match condition transfers to the store the matching
operation runs against; later operations can only re-stamp Upcoming.) -/
theorem upsertBatch_writes_upcoming (batch : List NewContest)
    (hb : ∀ c ∈ batch, c.status = "Upcoming") :
    ∀ s : List Contest, ∀ i : Nat, ∀ r : Contest, s[i]? = some r →
      ∀ c ∈ batch, contestKeyMatches r c = true →
      (∀ j : Nat, j < i → ∀ rj : Contest, s[j]? = some rj →
        contestKeyMatches rj c = false) →
      ∃ r', (upsertBatch s batch)[i]? = some r' ∧ r'.status = "Upcoming" := by
  induction batch with
  | nil =>
    intro s i r hr c hc
    simp at hc
  | cons c0 cs ih =>
    intro s i r hr c hc hm hfirst
    rcases List.mem_cons.mp hc with rfl | hc
    · have h1 : (upsertOne s c)[i]? = some (applySet r c) :=
        upsertOne_first_match c s i r hr hm hfirst
      obtain ⟨r', h1', _, _, _, hst⟩ :=
        upsertBatch_frame cs (fun x hx => hb x (List.mem_cons_of_mem c hx))
          (upsertOne s c) i (applySet r c) h1
      refine ⟨r', by simpa [upsertBatch] using h1', ?_⟩
      rcases hst with rfl | hst
      · exact hb c (List.mem_cons_self c cs)
      · exact hst
    · obtain ⟨r1, h1, hn1, ht1, _, _⟩ := upsertOne_frame c0 s i r hr
      have hm1 : contestKeyMatches r1 c = true := by
        rw [contestKeyMatches_congr r1 r c hn1 ht1]
        exact hm
      have hfirst1 : ∀ j : Nat, j < i → ∀ rj : Contest,
          (upsertOne s c0)[j]? = some rj → contestKeyMatches rj c = false := by
        intro j hj rj hrj
        have hlen : i < s.length := by
          rcases List.getElem?_eq_some.mp hr with ⟨h, _⟩
          exact h
        have hjs : s[j]? = some s[j] :=
          List.getElem?_eq_getElem (Nat.lt_trans hj hlen)
        obtain ⟨x', hx', hnx, htx, _, _⟩ := upsertOne_frame c0 s j s[j] hjs
        rw [hrj] at hx'
        obtain rfl := Option.some.inj hx'
        rw [contestKeyMatches_congr rj s[j] c hnx htx]
        exact hfirst j hj s[j] hjs
      obtain ⟨r', h1', hst⟩ :=
        ih (fun x hx => hb x (List.mem_cons_of_mem c0 hx))
          (upsertOne s c0) i r1 h1 c hc hm1 hfirst1
      exact ⟨r', by simpa [upsertBatch] using h1', hst⟩

/-- C10: a fetch cycle leaves every pre-existing record either exactly
as it was or rewritten with status "Upcoming", and the record's
`solutionUrl` is unchanged in both cases — the upsert never writes
that field; moreover, whenever some adapter contest of the cycle
matches the record's `(name, startTime)` identity (the record being
the first match for that key), the record IS rewritten: it ends the
cycle with status "Upcoming", so a status already advanced by the
lifecycle engine is reverted to Upcoming by a matching upsert. -/
theorem C10_fetch_frame (now : Int)
    (cf : Except String CFResponse)
    (lc : Except String (Option (List LCContestItem)))
    (he : Except String (Option (List HEContestItem)))
    (tc : Except String (Option (List TCChallengeItem)))
    (store : List Contest) (i : Nat) (r : Contest)
    (hr : store[i]? = some r) :
    ∃ r', (fetchAndStoreContests now cf lc he tc store)[i]? = some r' ∧
      r'.solutionUrl = r.solutionUrl ∧
      (r' = r ∨ r'.status = "Upcoming") ∧
      (∀ c ∈ cfAdapter cf ++ lcAdapter lc ++ heAdapter he ++ tcAdapter now tc,
        contestKeyMatches r c = true →
        (∀ j : Nat, j < i → ∀ rj : Contest, store[j]? = some rj →
          contestKeyMatches rj c = false) →
        r'.status = "Upcoming") := by
  by_cases h : 0 < (cfAdapter cf ++ lcAdapter lc ++ heAdapter he ++
      tcAdapter now tc).length
  · simp only [fetchAndStoreContests, if_pos h]
    obtain ⟨r', h1, _, _, hsu, hst⟩ :=
      upsertBatch_frame _ (adapters_status_upcoming now cf lc he tc)
        store i r hr
    refine ⟨r', h1, hsu, hst, ?_⟩
    intro c hc hm hfirst
    obtain ⟨r'', h1', hstat⟩ :=
      upsertBatch_writes_upcoming _ (adapters_status_upcoming now cf lc he tc)
        store i r hr c hc hm hfirst
    rw [h1] at h1'
    obtain rfl := Option.some.inj h1'
    exact hstat
  · have hnil : cfAdapter cf ++ lcAdapter lc ++ heAdapter he ++
        tcAdapter now tc = [] :=
      List.length_eq_zero.mp (Nat.eq_zero_of_not_pos h)
    simp only [fetchAndStoreContests, if_neg h]
    refine ⟨r, hr, rfl, Or.inl rfl, ?_⟩
    intro c hc
    rw [hnil] at hc
    simp at hc

/-- C10 (witness): a fetch cycle whose Codeforces feed matches the
stored Past contest `c10Stored` (which already carries a solution)
ends with that record's status rewritten to Upcoming and its
`solutionUrl` untouched. -/
theorem C10_fetch_frame_witness :
    ∃ r', (fetchAndStoreContests 0 (Except.ok ⟨"OK", [cfItemFix]⟩)
        (Except.ok none) (Except.ok none) (Except.ok none) [c10Stored])[0]? =
        some r' ∧
      r'.solutionUrl = c10Stored.solutionUrl ∧
      r'.status = "Upcoming" := by
  obtain ⟨r', h1, h2, h3, h4⟩ :=
    C10_fetch_frame 0 (Except.ok ⟨"OK", [cfItemFix]⟩) (Except.ok none)
      (Except.ok none) (Except.ok none) [c10Stored] 0 c10Stored rfl
  refine ⟨r', h1, h2, h4 cfMappedFix (by decide) (by decide) ?_⟩
  intro j hj
  exact absurd hj (Nat.not_lt_zero j)

end ContestTracker
